import Mathlib

/-!
Verification of the trade-journal core (note interpretation, merge,
query/ranking, analytics) against its TypeScript sources.

Modelling conventions of this shallow embedding:
* Timestamps (ISO strings in the source, always compared through
  `new Date(x).getTime()`) are modelled directly as their epoch-millisecond
  values of type `Int`.
* JavaScript numbers are modelled as exact decimals `JsNumber`
  (mantissa / 10 ^ exponent); the sources only produce and combine decimal
  literals, so no floating-point rounding is observable in the claims.
  Ratios produced by the analytics (win rates, averages) are modelled in `ℚ`.
* `crypto.randomUUID()` and `new Date()` are impure inputs of the route
  handler; they are passed in explicitly through a `PostEnv` record.
* JavaScript `Map` / `Set` are modelled as association lists preserving
  insertion order, matching their iteration-order semantics.
* `Array.prototype.sort` is stable; it is modelled by a stable insertion
  sort `stableSort`, unique-as-a-function for the total transitive
  Boolean `le` relations used here.
* The regular expressions of the heuristic extractor are compiled, one by
  one, into a small backtracking matcher (`Rx`) with JavaScript semantics:
  leftmost match, left-biased alternation, greedy quantifiers.
-/

/-! ### JavaScript numbers as exact decimals -/

/-- A JavaScript number `mant / 10 ^ exp`, kept unreduced. -/
structure JsNumber where
  mant : Int
  exp : Nat
deriving DecidableEq, Repr

/-- Embed into `ℚ` (used only by the analytics ratios). -/
def JsNumber.toQ (x : JsNumber) : ℚ := (x.mant : ℚ) / (10 : ℚ) ^ x.exp

/-- Value comparison `a <= b` (cross-multiplied, exact). -/
def JsNumber.le (a b : JsNumber) : Bool := a.mant * 10 ^ b.exp ≤ b.mant * 10 ^ a.exp

/-- Value comparison `a < b`. -/
def JsNumber.lt (a b : JsNumber) : Bool := a.mant * 10 ^ b.exp < b.mant * 10 ^ a.exp

/-- Value equality `a === b` (JS number equality is by value). -/
def JsNumber.valEq (a b : JsNumber) : Bool := a.mant * 10 ^ b.exp == b.mant * 10 ^ a.exp

/-- Exact decimal addition. -/
def JsNumber.add (a b : JsNumber) : JsNumber :=
  ⟨a.mant * 10 ^ b.exp + b.mant * 10 ^ a.exp, a.exp + b.exp⟩

/-- Multiplication by an integer constant (used for hours → minutes). -/
def JsNumber.scale (a : JsNumber) (k : Int) : JsNumber := ⟨a.mant * k, a.exp⟩

/-- `Math.round` (half-up, i.e. `⌊x + 1/2⌋`). -/
def JsNumber.round (a : JsNumber) : Int :=
  Int.fdiv (2 * a.mant + 10 ^ a.exp) (2 * 10 ^ a.exp)

/-- The zero used to seed JS `reduce((acc, v) => acc + v, 0)`. -/
def JsNumber.zero : JsNumber := ⟨0, 0⟩

/-- Sum of a list with JS `reduce`. -/
def JsNumber.sum (l : List JsNumber) : JsNumber := l.foldl JsNumber.add JsNumber.zero

/-- Integer literal helper. -/
def jsNum (m : Int) : JsNumber := ⟨m, 0⟩

/-! ### String helpers with JavaScript semantics (ASCII, which covers all
inputs appearing in the sources) -/

/-- `String.prototype.toLowerCase`. -/
def jsToLower (s : String) : String := ⟨s.data.map Char.toLower⟩

/-- `String.prototype.toUpperCase`. -/
def jsToUpper (s : String) : String := ⟨s.data.map Char.toUpper⟩

/-- `String.prototype.trim` on a character list. -/
def trimChars (cs : List Char) : List Char :=
  ((cs.dropWhile Char.isWhitespace).reverse.dropWhile Char.isWhitespace).reverse

/-- `String.prototype.trim`. -/
def jsTrim (s : String) : String := ⟨trimChars s.data⟩

/-- `String.prototype.slice(0, n)`. -/
def jsSlice (s : String) (n : Nat) : String := ⟨s.data.take n⟩

/-- Substring containment (`String.prototype.includes`) on char lists. -/
def listContainsSub (hay needle : List Char) : Bool :=
  match hay with
  | [] => needle.isEmpty
  | _ :: tl => needle.isPrefixOf hay || listContainsSub tl needle

/-- Count of non-overlapping occurrences scanning left to right
(`corpus.match(new RegExp(escapedToken, 'g')).length`); `fuel` bounds the
recursion and callers pass `hay.length + 1`, which suffices because
each step either consumes the match or advances one character. -/
def countOccurrencesAux (needle : List Char) : Nat → List Char → Nat
  | 0, _ => 0
  | _ + 1, [] => 0
  | fuel + 1, c :: tl =>
    if needle.isEmpty then 0
    else if needle.isPrefixOf (c :: tl) then
      1 + countOccurrencesAux needle fuel ((c :: tl).drop needle.length)
    else countOccurrencesAux needle fuel tl

/-- Count of non-overlapping occurrences of `needle` in `hay`. -/
def countOccurrences (hay needle : List Char) : Nat :=
  countOccurrencesAux needle (hay.length + 1) hay

/-! ### Regex character classes (JS semantics, ASCII) -/

def digitC (c : Char) : Bool := c.isDigit
def wsC (c : Char) : Bool := c.isWhitespace
def letterC (c : Char) : Bool := c.isAlpha
def upperC (c : Char) : Bool := 'A' ≤ c && c ≤ 'Z'
def wordC (c : Char) : Bool := c.isAlphanum || c == '_'
def isWordOpt (c : Option Char) : Bool :=
  match c with
  | some c => wordC c
  | none => false

/-! ### A small backtracking regex matcher with JavaScript semantics -/

/-- Regex abstract syntax: only the constructs appearing in the sources.
`lit ci cs` is a literal (case-insensitive when `ci`); `cls` a character
class; `clsStar` / `clsPlus` its greedy closures; `opt` a greedy `?`;
`cap` the (single) capture group; `wb` the `\b` assertion. -/
inductive Rx where
  | lit (ci : Bool) (cs : List Char)
  | cls (p : Char → Bool)
  | clsStar (p : Char → Bool)
  | clsPlus (p : Char → Bool)
  | seq (a b : Rx)
  | alt (a b : Rx)
  | opt (a : Rx)
  | cap (a : Rx)
  | wb

/-- One way a regex can match at the current position: the remaining
input, the character just before it (for `\b`), and the capture, if any. -/
structure MatchResult where
  rest : List Char
  prev : Option Char
  capture : Option (List Char)

/-- Case-aware character equality used by literals. -/
def charEq (ci : Bool) (a b : Char) : Bool :=
  if ci then a.toLower == b.toLower else a == b

/-- Match a literal, returning the remaining input and new previous char. -/
def litMatch (ci : Bool) : List Char → List Char → Option Char → Option (List Char × Option Char)
  | [], s, prev => some (s, prev)
  | _ :: _, [], _ => none
  | c :: cs, x :: xs, _ => if charEq ci c x then litMatch ci cs xs (some x) else none

/-- All ways of greedily consuming a prefix of `run` (the maximal class
run), longest first, mirroring the backtracking order of a greedy `*`. -/
def starStates : List Char → List Char → Option Char → List (List Char × Option Char)
  | [], s, prev => [(s, prev)]
  | c :: run, s, prev => starStates run (s.drop 1) (some c) ++ [(s, prev)]

/-- All matches of `r` at the current position, in the priority order a
JavaScript engine would try them (so the head is the JS match). -/
def matchRx : Rx → List Char → Option Char → List MatchResult
  | .lit ci cs, s, prev =>
    match litMatch ci cs s prev with
    | some (rest, prev) => [⟨rest, prev, none⟩]
    | none => []
  | .cls p, s, prev =>
    match s with
    | [] => []
    | x :: xs => if p x then [⟨xs, some x, none⟩] else (fun _ => []) prev
  | .clsStar p, s, prev =>
    (starStates (s.takeWhile p) s prev).map (fun st => ⟨st.1, st.2, none⟩)
  | .clsPlus p, s, prev =>
    ((starStates (s.takeWhile p) s prev).dropLast).map (fun st => ⟨st.1, st.2, none⟩)
  | .seq a b, s, prev =>
    (matchRx a s prev).flatMap (fun r =>
      (matchRx b r.rest r.prev).map (fun r2 =>
        ⟨r2.rest, r2.prev, r.capture.orElse (fun _ => r2.capture)⟩))
  | .alt a b, s, prev => matchRx a s prev ++ matchRx b s prev
  | .opt a, s, prev => matchRx a s prev ++ [⟨s, prev, none⟩]
  | .cap a, s, prev =>
    (matchRx a s prev).map (fun r =>
      ⟨r.rest, r.prev, some (s.take (s.length - r.rest.length))⟩)
  | .wb, s, prev =>
    if isWordOpt prev != isWordOpt s.head? then [⟨s, prev, none⟩] else []

/-- A successful search: matched text, capture, remaining input and the
character preceding the remaining input. -/
structure SearchHit where
  matched : List Char
  capture : Option (List Char)
  rest : List Char
  prev : Option Char

/-- Leftmost search (`String.prototype.match` without `g`): try each start
position left to right and return the engine's first match there. -/
def searchAux (r : Rx) : List Char → Option Char → Option SearchHit
  | s, prev =>
    match matchRx r s prev with
    | m :: _ => some ⟨s.take (s.length - m.rest.length), m.capture, m.rest, m.prev⟩
    | [] =>
      match s with
      | [] => none
      | c :: cs => searchAux r cs (some c)

/-- `regex.test(s)`. -/
def rxTest (r : Rx) (s : String) : Bool := (searchAux r s.data none).isSome

/-- `s.match(regex)?.[1]` — the capture of the first match. -/
def rxCapture (r : Rx) (s : List Char) : Option (List Char) :=
  match searchAux r s none with
  | some hit => hit.capture
  | none => none

/-- `s.match(regex)` with the `g` flag: all non-overlapping matched texts,
left to right.  `fuel` bounds the recursion; callers pass `s.length + 1`,
which suffices because every pattern used globally consumes at least one
character per match. -/
def findAllAux (r : Rx) : Nat → List Char → Option Char → List (List Char)
  | 0, _, _ => []
  | fuel + 1, s, prev =>
    match searchAux r s prev with
    | none => []
    | some hit =>
      if hit.matched.isEmpty then []
      else hit.matched :: findAllAux r fuel hit.rest hit.prev

/-- All matches of `r` in `s` (global regex matching). -/
def rxFindAll (r : Rx) (s : List Char) : List (List Char) :=
  findAllAux r (s.length + 1) s none

/-! ### Regex construction helpers -/

def rxStr (s : String) : Rx := .lit false s.data
def rxStrCI (s : String) : Rx := .lit true s.data

def rxSeq (rs : List Rx) : Rx := rs.foldr .seq (.lit false [])

def rxAlt : List Rx → Rx
  | [] => .cls (fun _ => false)
  | [r] => r
  | r :: rs => .alt r (rxAlt rs)

/-- `p{0,n}` (greedy). -/
def repAtMost (p : Char → Bool) : Nat → Rx
  | 0 => .lit false []
  | n + 1 => .opt (.seq (.cls p) (repAtMost p n))

/-- `p{lo, lo + extra}` (greedy). -/
def repRange (p : Char → Bool) (lo extra : Nat) : Rx :=
  rxSeq (List.replicate lo (.cls p) ++ [repAtMost p extra])

/-- `\bword\b` for each word, as one alternation (case-insensitive). -/
def wordAltRx (ws : List String) : Rx :=
  rxAlt (ws.map (fun w => rxSeq [.wb, rxStrCI w, .wb]))

/-- The capture `(-?\d+(?:\.\d+)?)`. -/
def rxNum : Rx :=
  .cap (rxSeq [.opt (rxStr "-"), .clsPlus digitC, .opt (rxSeq [rxStr ".", .clsPlus digitC])])

/-- The capture `(\d+(?:\.\d+)?)`. -/
def rxNumU : Rx :=
  .cap (rxSeq [.clsPlus digitC, .opt (rxSeq [rxStr ".", .clsPlus digitC])])

/-! ### A stable sort modelling `Array.prototype.sort`

`Array.prototype.sort` is stable.  A stable sort for a total, transitive
Boolean `le` is unique as a function, so it is modelled by insertion
sort (structural recursion, so concrete runs compute): an element is
inserted after every element `le`-below-or-equal to it, which preserves
the original relative order of `le`-equivalent elements exactly as a
comparator returning 0 does. -/

/-- Insert `a` after every `b` with `le b a`. -/
def stableInsert (le : α → α → Bool) (a : α) : List α → List α
  | [] => [a]
  | b :: bs => if le b a then b :: stableInsert le a bs else a :: b :: bs

/-- Stable sort: fold the list left to right into a sorted accumulator,
so later `le`-equivalent elements land after earlier ones. -/
def stableSort (le : α → α → Bool) (l : List α) : List α :=
  l.foldl (fun acc a => stableInsert le a acc) []

/-! ### Number parsing with JavaScript semantics -/

/-- Digit run to `Nat`. -/
def digitsToNat (cs : List Char) : Nat :=
  cs.foldl (fun a c => a * 10 + (c.toNat - '0'.toNat)) 0

/-- `Number.parseFloat`: optional sign, digits, optional fraction; reads
the longest valid prefix and ignores what follows; `NaN` (no digit at
all) is `none`. -/
def parseFloatJs (cs : List Char) : Option JsNumber :=
  let signRest : Bool × List Char :=
    match cs with
    | '-' :: r => (true, r)
    | '+' :: r => (false, r)
    | r => (false, r)
  let intPart := signRest.2.takeWhile digitC
  let rest2 := signRest.2.drop intPart.length
  let fracPart :=
    match rest2 with
    | '.' :: r2 => r2.takeWhile digitC
    | _ => []
  if intPart.isEmpty && fracPart.isEmpty then none
  else
    let mant : Int := (digitsToNat intPart : Int) * 10 ^ fracPart.length + digitsToNat fracPart
    some ⟨if signRest.1 then -mant else mant, fracPart.length⟩

/-- `Number(s)` on a string: trimmed; empty is `0`; otherwise the whole
string must be a decimal literal (exponent/hex forms never occur in this
repository's inputs), else `NaN` (`none`). -/
def jsNumberOfString (s : String) : Option JsNumber :=
  let cs := trimChars s.data
  if cs.isEmpty then some JsNumber.zero
  else
    let signRest : Bool × List Char :=
      match cs with
      | '-' :: r => (true, r)
      | '+' :: r => (false, r)
      | r => (false, r)
    let intPart := signRest.2.takeWhile digitC
    let rest2 := signRest.2.drop intPart.length
    let fracRest : List Char × List Char :=
      match rest2 with
      | '.' :: r2 => (r2.takeWhile digitC, r2.drop (r2.takeWhile digitC).length)
      | _ => ([], rest2)
    if (intPart.isEmpty && fracRest.1.isEmpty) || !fracRest.2.isEmpty then none
    else
      let mant : Int := (digitsToNat intPart : Int) * 10 ^ fracRest.1.length
        + digitsToNat fracRest.1
      some ⟨if signRest.1 then -mant else mant, fracRest.1.length⟩

/-- `Date.parse` on a record value.  Timestamps are already numeric in
this embedding, so no date-formatted string ever reaches this branch of
`toComparable`; modelled as never parsing. -/
def jsDateParse (_ : String) : Option JsNumber := none

/-! ### Data model (`types/trade.ts`) -/

inductive TradeType where
  | long | short | call | put
deriving DecidableEq, Repr

/-- `tradeTypes` from `types/trade.ts`. -/
def tradeTypes : List String := ["long", "short", "call", "put"]

def tradeTypeToString : TradeType → String
  | .long => "long"
  | .short => "short"
  | .call => "call"
  | .put => "put"

def tradeTypeOfString : String → Option TradeType
  | "long" => some .long
  | "short" => some .short
  | "call" => some .call
  | "put" => some .put
  | _ => none

inductive TradeStatus where
  | «open» | closed
deriving DecidableEq, Repr

def statusToString : TradeStatus → String
  | .«open» => "open"
  | .closed => "closed"

structure TradeNote where
  id : String
  text : String
  createdAt : Int
deriving DecidableEq, Repr

structure TradeAttachment where
  id : String
  name : String
  type : String
  dataUrl : String
deriving DecidableEq, Repr

/-- An attachment as supplied by a request body, before an id is assigned. -/
structure RawAttachment where
  id : Option String
  name : String
  type : String
  dataUrl : String
deriving DecidableEq, Repr

structure TradeEntry where
  trade_id : String
  ticker : String
  trade_type : TradeType
  size : Option JsNumber
  entry_price : Option JsNumber
  exit_price : Option JsNumber
  pnl_pct : Option JsNumber
  pnl_usd : Option JsNumber
  duration_minutes : Option JsNumber
  rr_ratio : Option JsNumber
  sentiment : Option String
  status : TradeStatus
  notes : List TradeNote
  attachments : List TradeAttachment
  opened_at : Option Int
  closed_at : Option Int
  raw_summary : Option String
  createdAt : Int
  updatedAt : Int
deriving DecidableEq, Repr

/-- The `trade` payload of a `TradeExtraction` (`TradeExtractionSchema`);
`null` and a missing field are collapsed into `none`, matching how every
consumer reads them through `??`. -/
structure ExtractionTrade where
  trade_id : Option String
  ticker : Option String
  trade_type : Option TradeType
  size : Option JsNumber
  entry_price : Option JsNumber
  exit_price : Option JsNumber
  pnl_pct : Option JsNumber
  pnl_usd : Option JsNumber
  duration_minutes : Option JsNumber
  rr_ratio : Option JsNumber
  sentiment : Option String
  status : Option TradeStatus
  opened_at : Option Int
  closed_at : Option Int
  raw_summary : Option String
deriving DecidableEq, Repr

inductive ExtractionAction where
  | create | update
deriving DecidableEq, Repr

structure TradeExtraction where
  action : ExtractionAction
  target_trade_id : Option String
  trade : ExtractionTrade
  reasoning : Option String
deriving DecidableEq, Repr

/-! ### Field Sanitizer and Merge Engine (`lib/trade-helpers.ts`) -/

/-- `sanitizeTicker`: `value ? value.trim().toUpperCase() : 'UNKNOWN'`
(the empty string is falsy). -/
def sanitizeTicker (value : Option String) : String :=
  match value with
  | none => "UNKNOWN"
  | some v => if v = "" then "UNKNOWN" else jsToUpper (jsTrim v)

/-- `sanitizeTradeType`: case-insensitive lookup in `tradeTypes`, default
`long`. -/
def sanitizeTradeType (value : Option String) : TradeType :=
  match value with
  | none => .long
  | some v =>
    if v = "" then .long
    else ((tradeTypes.find? (fun t => t = jsToLower v)).bind tradeTypeOfString).getD .long

/-- `sanitizeStatus`: `closed` only on a case-insensitive match, default
`open`. -/
def sanitizeStatus (value : Option String) : TradeStatus :=
  match value with
  | none => .«open»
  | some v =>
    if v = "" then .«open»
    else if jsToLower v = "closed" then .closed else .«open»

/-- `coerceNumber`: `null`/`undefined` ↦ `null`, else `Number(value)`
with `NaN` ↦ `null`. -/
def coerceNumber (value : Option String) : Option JsNumber :=
  match value with
  | none => none
  | some s => jsNumberOfString s

/-- `createNote` — `crypto.randomUUID()` and `new Date()` are passed in. -/
def createNote (noteId : String) (now : Int) (text : String) : TradeNote :=
  { id := noteId, text := text, createdAt := now }

/-- `normalizeAttachments` — missing ids are filled with fresh UUIDs,
modelled by `freshId` indexed by position. -/
def normalizeAttachments (freshId : Nat → String) (attachments : Option (List RawAttachment)) :
    List TradeAttachment :=
  ((attachments.getD []).enum).map (fun ia =>
    { id := ia.2.id.getD (freshId ia.1), name := ia.2.name, type := ia.2.type,
      dataUrl := ia.2.dataUrl })

/-- Decimal rendering used in template strings.  The source prints the JS
float (`5.2`); this model may keep a trailing zero (`5.20`) — no claim
observes the rendering of a non-integer. -/
def jsNumToString (x : JsNumber) : String :=
  let sign : List Char := if x.mant < 0 then ['-'] else []
  let ds : List Char := (toString x.mant.natAbs).data
  if x.exp = 0 then ⟨sign ++ ds⟩
  else
    let ds := List.replicate (x.exp + 1 - ds.length) '0' ++ ds
    ⟨sign ++ ds.take (ds.length - x.exp) ++ '.' :: ds.drop (ds.length - x.exp)⟩

def optNumStr (v : Option JsNumber) : String :=
  match v with
  | some n => jsNumToString n
  | none => "n/a"

/-- `buildEmbeddingText`.  Note timestamps are interpolated as their
numeric model. -/
def buildEmbeddingText (trade : TradeEntry) : String :=
  let metricLines : List String := [
    "Ticker: " ++ trade.ticker,
    "Type: " ++ tradeTypeToString trade.trade_type,
    "Status: " ++ statusToString trade.status,
    "Size: " ++ optNumStr trade.size,
    "Entry: " ++ optNumStr trade.entry_price,
    "Exit: " ++ optNumStr trade.exit_price,
    "PnL USD: " ++ optNumStr trade.pnl_usd,
    "PnL %: " ++ optNumStr trade.pnl_pct,
    "R:R: " ++ optNumStr trade.rr_ratio,
    "Sentiment: " ++ (trade.sentiment.getD "n/a")]
  let noteBlock := String.intercalate "\n"
    (trade.notes.map (fun note => "Note @" ++ toString note.createdAt ++ ": " ++ note.text))
  let summary :=
    match trade.raw_summary with
    | some s => if s = "" then "" else "Summary: " ++ s
    | none => ""
  String.intercalate "\n" ((metricLines ++ [summary, noteBlock]).filter (fun s => s ≠ ""))

/-- The body of the `incoming.forEach` dedup loop of `mergeNotes`: skip a
note whose id is already seen, else record the id and append the note. -/
def mergeNotesStep (st : List String × List TradeNote) (note : TradeNote) :
    List String × List TradeNote :=
  if st.1.contains note.id then st else (note.id :: st.1, st.2 ++ [note])

/-- `mergeNotes`: existing unchanged when incoming is missing or empty;
otherwise append incoming notes whose id is not yet present (the id set
grows as the loop runs) and re-sort by creation time ascending
(`Array.prototype.sort` is stable). -/
def mergeNotes (existing : List TradeNote) (incoming : Option (List TradeNote) := none) :
    List TradeNote :=
  match incoming with
  | none => existing
  | some inc =>
    if inc.isEmpty then existing
    else
      let merged := inc.foldl mergeNotesStep (existing.map (fun n => n.id), existing)
      stableSort (fun a b => a.createdAt ≤ b.createdAt) merged.2

/-- `Map.prototype.set` on an insertion-ordered association list keyed by
attachment id: replace in place, or append a new key. -/
def attachmentMapSet (entries : List TradeAttachment) (a : TradeAttachment) :
    List TradeAttachment :=
  if entries.any (fun e => e.id = a.id) then
    entries.map (fun e => if e.id = a.id then a else e)
  else entries ++ [a]

/-- `mergeAttachments`: id-keyed map seeded from existing, overwritten by
incoming (last write wins), returned in map iteration order. -/
def mergeAttachments (existing : List TradeAttachment)
    (incoming : Option (List TradeAttachment) := none) : List TradeAttachment :=
  match incoming with
  | none => existing
  | some inc =>
    if inc.isEmpty then existing
    else inc.foldl attachmentMapSet (existing.foldl attachmentMapSet [])

/-! ### Query Engine (`lib/memory-trade-store.ts`) -/

/-- A JavaScript value as it occurs in filters and record fields. -/
inductive JsValue where
  | str (s : String)
  | num (n : JsNumber)
  | nullV
deriving DecidableEq, Repr

/-- Strict equality `===` (numbers by value). -/
def jsStrictEq (a b : JsValue) : Bool :=
  match a, b with
  | .str x, .str y => x == y
  | .num x, .num y => JsNumber.valEq x y
  | .nullV, .nullV => true
  | _, _ => false

/-- `toComparable`'s result: a number or a lower-cased string. -/
inductive CompValue where
  | num (n : JsNumber)
  | str (s : String)
deriving DecidableEq, Repr

/-- `toComparable`: numbers stay numbers, numeric strings parse, date
strings parse to timestamps, other strings lower-case. -/
def toComparable (v : JsValue) : Option CompValue :=
  match v with
  | .nullV => none
  | .num n => some (.num n)
  | .str s =>
    match jsNumberOfString s with
    | some n => some (.num n)
    | none =>
      match jsDateParse s with
      | some t => some (.num t)
      | none => some (.str (jsToLower s))

inductive RangeOp where
  | gte | lte
deriving DecidableEq, Repr

/-- `compareWithOperator`: `false` whenever either side normalizes to
null or the two sides have different shapes. -/
def compareWithOperator (tradeValue target : JsValue) (op : RangeOp) : Bool :=
  match toComparable tradeValue, toComparable target with
  | some (.num l), some (.num r) =>
    match op with
    | .gte => JsNumber.le r l
    | .lte => JsNumber.le l r
  | some (.str l), some (.str r) =>
    match op with
    | .gte => decide (r ≤ l)
    | .lte => decide (l ≤ r)
  | _, _ => false

/-- A filter condition.  The source checks `'$in' in condition` before
the range keys, so an object holding `$in` never evaluates its ranges —
the constructors mirror that precedence.  A literal `null` condition is
`lit .nullV` (skipped). -/
inductive FilterCond where
  | lit (v : JsValue)
  | inSet (set : Option (List JsValue))
  | range (gte lte : Option JsValue)
deriving DecidableEq, Repr

abbrev FilterRecord := List (String × FilterCond)

/-- A `$in` member against the record value: case-insensitive for
string/string, strict equality otherwise. -/
def inCandMatches (candidate value : JsValue) : Bool :=
  match candidate, value with
  | .str c, .str v => jsToLower c == jsToLower v
  | _, _ => jsStrictEq candidate value

/-- One condition against the record's value for that key. -/
def matchesCond (value : JsValue) (cond : FilterCond) : Bool :=
  match cond with
  | .lit .nullV => true
  | .lit c =>
    match c, value with
    | .str cs, .str vs => jsToLower cs == jsToLower vs
    | _, _ => jsStrictEq value c
  | .inSet set =>
    match set with
    | none => true
    | some s => if s.isEmpty then true else s.any (fun cand => inCandMatches cand value)
  | .range gte lte =>
    (match gte with
     | none => true
     | some b => compareWithOperator value b .gte) &&
    (match lte with
     | none => true
     | some b => compareWithOperator value b .lte)

/-- Dynamic field access `(trade as Record<string, unknown>)[key]` for the
scalar fields a filter can mention (the list/object fields would be
non-scalar JS values no filter in the repository constructs). -/
def tradeField (t : TradeEntry) (key : String) : JsValue :=
  match key with
  | "trade_id" => .str t.trade_id
  | "ticker" => .str t.ticker
  | "trade_type" => .str (tradeTypeToString t.trade_type)
  | "status" => .str (statusToString t.status)
  | "size" => t.size.elim .nullV .num
  | "entry_price" => t.entry_price.elim .nullV .num
  | "exit_price" => t.exit_price.elim .nullV .num
  | "pnl_pct" => t.pnl_pct.elim .nullV .num
  | "pnl_usd" => t.pnl_usd.elim .nullV .num
  | "duration_minutes" => t.duration_minutes.elim .nullV .num
  | "rr_ratio" => t.rr_ratio.elim .nullV .num
  | "sentiment" => t.sentiment.elim .nullV .str
  | "opened_at" => t.opened_at.elim .nullV (fun v => .num (jsNum v))
  | "closed_at" => t.closed_at.elim .nullV (fun v => .num (jsNum v))
  | "raw_summary" => t.raw_summary.elim .nullV .str
  | "createdAt" => .num (jsNum t.createdAt)
  | "updatedAt" => .num (jsNum t.updatedAt)
  | _ => .nullV

/-- `matchesFilter`: every key of the filter must match. -/
def matchesFilter (trade : TradeEntry) (filter : FilterRecord) : Bool :=
  filter.all (fun kc => matchesCond (tradeField trade kc.1) kc.2)

inductive SortKey where
  | createdAt | updatedAt
deriving DecidableEq, Repr

inductive SortDirection where
  | asc | desc
deriving DecidableEq, Repr

structure ListOptions where
  limit : Option Nat := none
  sortBy : SortKey := .createdAt
  direction : SortDirection := .desc
deriving DecidableEq, Repr

def sortKeyVal (k : SortKey) (t : TradeEntry) : Int :=
  match k with
  | .createdAt => t.createdAt
  | .updatedAt => t.updatedAt

/-- `sortTrades`: stable sort on the requested timestamp; the JS
comparator returns 0 on equal keys, which a stable sort preserves. -/
def sortTrades (trades : List TradeEntry) (opts : ListOptions) : List TradeEntry :=
  match opts.direction with
  | .asc => stableSort (fun a b => sortKeyVal opts.sortBy a ≤ sortKeyVal opts.sortBy b) trades
  | .desc => stableSort (fun a b => sortKeyVal opts.sortBy b ≤ sortKeyVal opts.sortBy a) trades

/-- `listTrades` over an explicit store (the global memory store passed
explicitly; `cloneTrade` is the identity in this pure model).  The limit
is applied only when truthy: `options.limit ? sorted.slice(0, limit) :
sorted`, so a 0 limit is ignored. -/
def listTrades (store : List TradeEntry) (filter : FilterRecord := [])
    (options : ListOptions := {}) : List TradeEntry :=
  let filtered := store.filter (fun t => matchesFilter t filter)
  let sorted := sortTrades filtered options
  match options.limit with
  | some n => if n ≠ 0 then sorted.take n else sorted
  | none => sorted

/-- `getTradeById`. -/
def getTradeById (store : List TradeEntry) (tradeId : String) : Option TradeEntry :=
  store.find? (fun t => t.trade_id = tradeId)

/-- `upsertTrade`: replace by id and move to the front. -/
def upsertTrade (store : List TradeEntry) (trade : TradeEntry) : List TradeEntry :=
  trade :: store.filter (fun existing => existing.trade_id ≠ trade.trade_id)

/-- `deleteTrade` (returns the new store and whether anything was removed). -/
def deleteTrade (store : List TradeEntry) (tradeId : String) : List TradeEntry × Bool :=
  let remaining := store.filter (fun t => t.trade_id ≠ tradeId)
  (remaining, remaining.length < store.length)

/-! ### Ranking Engine (`lib/memory-trade-store.ts`, search half) -/

/-- `[a-z0-9]` after lower-casing (the split pattern is
`/[^a-z0-9]+/i`). -/
def alnumTok (c : Char) : Bool :=
  ('a' ≤ c && c ≤ 'z') || ('A' ≤ c && c ≤ 'Z') || c.isDigit

/-- Maximal `alnumTok` runs (the non-empty pieces of
`split(/[^a-z0-9]+/i)`). -/
def splitRunsAux : List Char → List Char → List (List Char)
  | acc, [] => if acc.isEmpty then [] else [acc.reverse]
  | acc, c :: cs =>
    if alnumTok c then splitRunsAux (c :: acc) cs
    else if acc.isEmpty then splitRunsAux [] cs
    else acc.reverse :: splitRunsAux [] cs

/-- Order-preserving dedup (JS `Set` keeps first insertion). -/
def dedupFirstAux (seen : List String) : List String → List String
  | [] => []
  | t :: ts =>
    if seen.contains t then dedupFirstAux seen ts
    else t :: dedupFirstAux (t :: seen) ts

/-- `buildSearchTokens`: lower-case, split on non-alphanumeric runs, drop
empties, dedup keeping first occurrences. -/
def buildSearchTokens (query : String) : List String :=
  dedupFirstAux [] ((splitRunsAux [] (jsToLower query).data).map (fun t => (⟨t⟩ : String)))

/-- `buildSearchCorpus`: metadata, note text, summary and the embedding
text, lower-cased into one blob. -/
def buildSearchCorpus (trade : TradeEntry) : String :=
  let noteText := String.intercalate " " (trade.notes.map (fun n => n.text))
  let summary := trade.raw_summary.getD ""
  let metadata := trade.ticker ++ " " ++ tradeTypeToString trade.trade_type ++ " "
    ++ statusToString trade.status ++ " " ++ (trade.sentiment.getD "")
  jsToLower (metadata ++ "\n" ++ noteText ++ "\n" ++ summary ++ "\n" ++ buildEmbeddingText trade)

structure RankedTrade where
  trade : TradeEntry
  score : Nat
deriving DecidableEq, Repr

/-- Per-trade lexical score: +3 for a ticker hit, plus the occurrence
count of each token present in the corpus (`matches ? matches.length :
1` — the count is at least 1 whenever `includes` held). -/
def scoreTrade (trade : TradeEntry) (tokens : List String) : Nat :=
  let corpus := buildSearchCorpus trade
  let ticker := jsToLower trade.ticker
  tokens.foldl (fun score token =>
    if token = "" then score
    else
      let score := if ticker = token then score + 3 else score
      if listContainsSub corpus.data token.data then
        let found := countOccurrences corpus.data token.data
        score + (if found ≠ 0 then found else 1)
      else score) 0

/-- `rankTradesByTokens`: zero tokens score every candidate 0. -/
def rankTradesByTokens (trades : List TradeEntry) (tokens : List String) : List RankedTrade :=
  trades.map (fun trade =>
    if tokens.isEmpty then ⟨trade, 0⟩ else ⟨trade, scoreTrade trade tokens⟩)

/-- `sortByScore`: descending score, then descending `updatedAt`, stable
beyond that (the JS comparator returns 0 there). -/
def sortByScore (ranked : List RankedTrade) : List TradeEntry :=
  (stableSort (fun a b =>
    if a.score ≠ b.score then b.score < a.score
    else b.trade.updatedAt ≤ a.trade.updatedAt) ranked).map (fun r => r.trade)

/-- `searchTrades`: candidates from the Query Engine (updatedAt
descending, no limit), re-ranked lexically, truncated to `limit`
(default 15).  Nothing filters on the score. -/
def searchTrades (store : List TradeEntry) (query : String) (filter : FilterRecord := [])
    (limit : Nat := 15) : List TradeEntry :=
  let tokens := buildSearchTokens query
  let candidates := listTrades store filter { sortBy := .updatedAt, direction := .desc }
  let ranked := sortByScore (rankTradesByTokens candidates tokens)
  ranked.take limit

/-- `|x|` of a decimal. -/
def jsAbs (x : JsNumber) : JsNumber := ⟨|x.mant|, x.exp⟩

/-- `Number.prototype.toFixed(2)`. -/
def jsToFixed2 (x : JsNumber) : String :=
  let scaled := JsNumber.round ⟨x.mant * 100, x.exp⟩
  let n := scaled.natAbs
  let sign := if scaled < 0 then "-" else ""
  sign ++ toString (n / 100) ++ "." ++ (if n % 100 < 10 then "0" else "") ++ toString (n % 100)

/-- `formatPnl`. -/
def formatPnl (trade : TradeEntry) : String :=
  match trade.pnl_usd with
  | some v =>
    (if JsNumber.le JsNumber.zero v then "up" else "down") ++ " $" ++ jsToFixed2 (jsAbs v)
  | none =>
    match trade.pnl_pct with
    | some v =>
      (if JsNumber.le JsNumber.zero v then "up" else "down") ++ " " ++ jsToFixed2 (jsAbs v) ++ "%"
    | none => "no recorded PnL"

/-- `buildSearchAnswer`: the documented empty-result message, or a header
plus up to three bullet points. -/
def buildSearchAnswer (query : String) (trades : List TradeEntry) : String :=
  if trades.isEmpty then
    "I couldn\x27t find any journal entries related to \"" ++ query
      ++ "\". Try adjusting your filters or add more detail to future notes."
  else
    let header :=
      if trades.length = 1 then "I found one trade related to \"" ++ query ++ "\"."
      else "I found " ++ toString trades.length ++ " trades related to \"" ++ query ++ "\"."
    let bulletPoints := (trades.take 3).map (fun trade =>
      let latestNote :=
        match trade.notes.getLast? with
        | some n => n.text
        | none => "No journal notes recorded yet."
      "• " ++ trade.ticker ++ " " ++ tradeTypeToString trade.trade_type ++ " ("
        ++ statusToString trade.status ++ ") — " ++ formatPnl trade ++ ". " ++ latestNote)
    String.intercalate "\n" (header :: bulletPoints)

/-! ### Analytics Engine (`lib/analytics.ts`) -/

/-- `isWin`: currency pnl first, then percent pnl, else not a win. -/
def isWin (trade : TradeEntry) : Bool :=
  match trade.pnl_usd with
  | some v => JsNumber.lt JsNumber.zero v
  | none =>
    match trade.pnl_pct with
    | some v => JsNumber.lt JsNumber.zero v
    | none => false

/-- `toNumber`: keep a real number, drop `null`/`undefined` (`NaN` has no
representative in the exact-decimal model). -/
def toNumber (value : Option JsNumber) : Option JsNumber := value

/-- `wins / total × 100`, `0` when the denominator is 0 (the source's
`total ? (wins / total) * 100 : 0`, shared by the three win rates). -/
def ratePct (wins total : Nat) : ℚ :=
  if total = 0 then 0 else ((wins : ℚ) / (total : ℚ)) * 100

/-- `vals.length ? vals.reduce((a, v) => a + v, 0) / vals.length : null`. -/
def meanQ (vals : List JsNumber) : Option ℚ :=
  if vals.isEmpty then none
  else some ((JsNumber.sum vals).toQ / (vals.length : ℚ))

/-- `sum / n`, `0` when `n = 0` (sentiment group average). -/
def avgQ (sum : JsNumber) (n : Nat) : ℚ :=
  if n = 0 then 0 else sum.toQ / (n : ℚ)

/-- `toNumber(pnl_usd) ?? toNumber(pnl_pct)`. -/
def pnlScore (t : TradeEntry) : Option JsNumber :=
  (toNumber t.pnl_usd).orElse (fun _ => toNumber t.pnl_pct)

/-- `a > b` where a missing value reads as `-Infinity` (best-trade
reduction). -/
def negInfGt (a b : Option JsNumber) : Bool :=
  match a, b with
  | some x, some y => JsNumber.lt y x
  | some _, none => true
  | none, _ => false

/-- `a < b` where a missing value reads as `Infinity` (worst-trade
reduction). -/
def posInfLt (a b : Option JsNumber) : Bool :=
  match a, b with
  | some x, some y => JsNumber.lt x y
  | some _, none => true
  | none, _ => false

structure GroupStats where
  trades : Nat
  totalPnlUsd : JsNumber
  winCount : Nat
deriving DecidableEq, Repr

/-- `Map.prototype.set` on the insertion-ordered group map. -/
def groupUpsert (groups : List (String × GroupStats)) (key : String) (stats : GroupStats) :
    List (String × GroupStats) :=
  if groups.any (fun g => g.1 = key) then
    groups.map (fun g => if g.1 = key then (key, stats) else g)
  else groups ++ [(key, stats)]

/-- `map.get(key) ?? { trades: 0, totalPnlUsd: 0, winCount: 0 }`. -/
def groupLookup (groups : List (String × GroupStats)) (key : String) : GroupStats :=
  (((groups.find? (fun g => g.1 = key)).map (fun g => g.2))).getD ⟨0, JsNumber.zero, 0⟩

/-- The shared per-group accumulation loop of the ticker and sentiment
rollups. -/
def accumulateGroups (keyOf : TradeEntry → String) (trades : List TradeEntry) :
    List (String × GroupStats) :=
  trades.foldl (fun groups trade =>
    let key := keyOf trade
    let entry := groupLookup groups key
    groupUpsert groups key
      { trades := entry.trades + 1,
        totalPnlUsd := entry.totalPnlUsd.add ((toNumber trade.pnl_usd).getD JsNumber.zero),
        winCount := entry.winCount + (if isWin trade then 1 else 0) }) []

structure TickerPerformance where
  ticker : String
  trades : Nat
  totalPnlUsd : JsNumber
  winRate : ℚ
deriving DecidableEq, Repr

structure SentimentPerformance where
  sentiment : String
  trades : Nat
  averagePnlUsd : ℚ
  winRate : ℚ
deriving DecidableEq, Repr

structure TimelinePoint where
  date : Int
  cumulativePnlUsd : JsNumber
  trade_id : String
  label : String
deriving DecidableEq, Repr

/-- Intermediate timeline element before cumulation. -/
structure TimelineSeed where
  date : Int
  pnlUsd : JsNumber
  trade : TradeEntry
deriving DecidableEq, Repr

structure TradeAnalytics where
  totalTrades : Nat
  openTrades : Nat
  closedTrades : Nat
  winRate : ℚ
  averageRR : Option ℚ
  averageHoldMinutes : Option ℚ
  longestWinStreak : Nat
  currentWinStreak : Nat
  bestTrade : Option TradeEntry
  worstTrade : Option TradeEntry
  performanceByTicker : List TickerPerformance
  sentimentPerformance : List SentimentPerformance
  pnlTimeline : List TimelinePoint
deriving DecidableEq, Repr

/-- `calculateAnalytics`. -/
def calculateAnalytics (trades : List TradeEntry) : TradeAnalytics :=
  let totalTrades := trades.length
  let closedTrades := trades.filter (fun t => t.status = .closed)
  let openTrades := totalTrades - closedTrades.length
  let rrValues := (trades.map (fun t => toNumber t.rr_ratio)).reduceOption
  let averageRR := meanQ rrValues
  let holdTimes := (trades.map (fun t => toNumber t.duration_minutes)).reduceOption
  let averageHoldMinutes := meanQ holdTimes
  let winCount := (closedTrades.filter (fun t => isWin t)).length
  let winRate := ratePct winCount closedTrades.length
  let sortedByClose := stableSort (fun a b => a.closed_at.getD 0 ≤ b.closed_at.getD 0) closedTrades
  let streaks := sortedByClose.foldl
    (fun (st : Nat × Nat) t =>
      if isWin t then (max st.1 (st.2 + 1), st.2 + 1) else (st.1, 0)) (0, 0)
  let bestTrade := closedTrades.foldl (fun best trade =>
    match best with
    | none => some trade
    | some b => if negInfGt (pnlScore trade) (pnlScore b) then some trade else some b) none
  let worstTrade := closedTrades.foldl (fun worst trade =>
    match worst with
    | none => some trade
    | some w => if posInfLt (pnlScore trade) (pnlScore w) then some trade else some w) none
  let performanceByTicker := (accumulateGroups (fun t => jsToUpper t.ticker) trades).map
    (fun g =>
      { ticker := g.1, trades := g.2.trades, totalPnlUsd := g.2.totalPnlUsd,
        winRate := ratePct g.2.winCount g.2.trades })
  let sentimentPerformance :=
    (accumulateGroups (fun t => jsToLower (t.sentiment.getD "unspecified")) trades).map
      (fun g =>
        { sentiment := g.1, trades := g.2.trades,
          averagePnlUsd := avgQ g.2.totalPnlUsd g.2.trades,
          winRate := ratePct g.2.winCount g.2.trades })
  let timelineSeeds := trades.map (fun trade =>
    { date := trade.closed_at.getD trade.createdAt,
      pnlUsd := (toNumber trade.pnl_usd).getD JsNumber.zero,
      trade := trade : TimelineSeed })
  let sortedSeeds := stableSort (fun a b => a.date ≤ b.date) timelineSeeds
  let pnlTimeline := sortedSeeds.enum.map (fun ie =>
    { date := ie.2.date,
      cumulativePnlUsd := JsNumber.sum ((sortedSeeds.take (ie.1 + 1)).map (fun e => e.pnlUsd)),
      trade_id := ie.2.trade.trade_id,
      label := ie.2.trade.ticker ++ " " ++ jsToUpper (tradeTypeToString ie.2.trade.trade_type) })
  { totalTrades := totalTrades,
    openTrades := openTrades,
    closedTrades := closedTrades.length,
    winRate := winRate,
    averageRR := averageRR,
    averageHoldMinutes := averageHoldMinutes,
    longestWinStreak := streaks.1,
    currentWinStreak := streaks.2,
    bestTrade := bestTrade,
    worstTrade := worstTrade,
    performanceByTicker := performanceByTicker,
    sentimentPerformance := sentimentPerformance,
    pnlTimeline := pnlTimeline }

/-! ### Extraction Coordinator and Heuristic Extractor
(`app/api/trades/route.ts`) -/

/-- `FALLBACK_TICKER_EXCLUSIONS`. -/
def FALLBACK_TICKER_EXCLUSIONS : List String :=
  ["LONG", "SHORT", "CALL", "PUT", "CALLS", "PUTS", "OPEN", "CLOSE", "CLOSED",
   "ENTRY", "EXIT", "STOP", "LOSS", "GAIN", "TARGET", "PNL", "USD", "SHARES",
   "TRADE", "NOTE"]

/-- `FALLBACK_UPDATE_HINT`:
`/\b(update|add note|still in|holding|trim(?:med|ming)?|scaled|scaling|reduce|adding)\b/i`. -/
def fallbackUpdateHintRx : Rx :=
  rxSeq [.wb,
    rxAlt [rxStrCI "update", rxStrCI "add note", rxStrCI "still in", rxStrCI "holding",
      rxSeq [rxStrCI "trim", .opt (rxAlt [rxStrCI "med", rxStrCI "ming"])],
      rxStrCI "scaled", rxStrCI "scaling", rxStrCI "reduce", rxStrCI "adding"],
    .wb]

/-- `extractNumberFromNote`: try the patterns in order; on a match, strip
every character outside `[0-9.-]` from the (single) capture and
`parseFloat` it; fall through to the next pattern when anything fails. -/
def extractNumberFromNote (note : List Char) : List Rx → Option JsNumber
  | [] => none
  | p :: ps =>
    match searchAux p note none with
    | none => extractNumberFromNote note ps
    | some hit =>
      match hit.capture with
      | none => extractNumberFromNote note ps
      | some raw =>
        if raw.isEmpty then extractNumberFromNote note ps
        else
          let normalized := raw.filter (fun c => digitC c || c == '.' || c == '-')
          if normalized.isEmpty then extractNumberFromNote note ps
          else
            match parseFloatJs normalized with
            | some value => some value
            | none => extractNumberFromNote note ps

/-- `/entry(?: price)?[^0-9-]*(-?\d+(?:\.\d+)?)/i` and the two fallback
entry-price patterns. -/
def entryPricePatterns : List Rx :=
  [rxSeq [rxStrCI "entry", .opt (rxStrCI " price"),
     .clsStar (fun c => !(digitC c || c == '-')), rxNum],
   rxSeq [rxAlt [rxStrCI "bought", rxStrCI "buy", rxStrCI "added", rxStrCI "long",
       rxStrCI "call"],
     .clsStar (fun c => !(c == '$' || digitC c || c == '-')), .opt (rxStr "$"),
     .clsStar wsC, rxNum],
   rxSeq [rxStr "@", .clsStar wsC, .opt (rxStr "$"), .clsStar wsC, rxNum]]

/-- The three exit-price patterns. -/
def exitPricePatterns : List Rx :=
  [rxSeq [rxStrCI "exit", .opt (rxAlt [rxStrCI "ed", rxStrCI " price"]),
     .clsStar (fun c => !(digitC c || c == '-')), rxNum],
   rxSeq [rxAlt [rxStrCI "sold", rxSeq [rxStrCI "close", .opt (rxStrCI "d")],
       rxSeq [rxStrCI "trim", .opt (rxAlt [rxStrCI "med", rxStrCI "ming"])],
       rxStrCI "took profit", rxStrCI "tp", rxStrCI "target"],
     .clsStar (fun c => !(c == '$' || digitC c || c == '-')), .opt (rxStr "$"),
     .clsStar wsC, rxNum],
   rxSeq [rxStrCI "stop", .opt (rxStrCI "ped"),
     .clsStar (fun c => !(c == '$' || digitC c || c == '-')), .opt (rxStr "$"),
     .clsStar wsC, rxNum]]

/-- The three size patterns. -/
def sizePatterns : List Rx :=
  [rxSeq [rxNumU, .clsStar wsC,
     rxAlt [rxStrCI "shares", rxStrCI "contracts", rxStrCI "lots"]],
   rxSeq [rxStrCI "size", .clsStar wsC, .opt (rxStr ":"), .clsStar wsC, rxNumU],
   rxSeq [rxStrCI "qty", .clsStar wsC, .opt (rxStr ":"), .clsStar wsC, rxNumU]]

/-- The two currency-pnl patterns. -/
def pnlUsdPatterns : List Rx :=
  [rxSeq [rxAlt [rxStrCI "pnl", rxStrCI "profit", rxStrCI "gain", rxStrCI "loss"],
     .clsStar (fun c => !(c == '$' || digitC c || c == '-')), .opt (rxStr "$"),
     .clsStar wsC, rxNum],
   rxSeq [rxStr "$", rxNum, .clsStar (fun c => !(c == '%' || letterC c)), .wb,
     rxAlt [rxStrCI "pnl", rxStrCI "gain", rxStrCI "loss"]]]

/-- `/(-?\d+(?:\.\d+)?)\s*%/i`. -/
def pnlPctPatterns : List Rx := [rxSeq [rxNum, .clsStar wsC, rxStr "%"]]

/-- `/(\d+(?:\.\d+)?)\s*R\b/i` and `/R\s*[:=]\s*(\d+(?:\.\d+)?)/i`. -/
def rrPatterns : List Rx :=
  [rxSeq [rxNumU, .clsStar wsC, rxStrCI "R", .wb],
   rxSeq [rxStrCI "R", .clsStar wsC, .cls (fun c => c == ':' || c == '='),
     .clsStar wsC, rxNumU]]

/-- `/(\d+(?:\.\d+)?)\s*(?:minutes|min|m)\b/i`. -/
def minutesRx : Rx :=
  rxSeq [rxNumU, .clsStar wsC, rxAlt [rxStrCI "minutes", rxStrCI "min", rxStrCI "m"], .wb]

/-- `/(\d+(?:\.\d+)?)\s*(?:hours|hrs|hr|h)\b/i`. -/
def hoursRx : Rx :=
  rxSeq [rxNumU, .clsStar wsC,
    rxAlt [rxStrCI "hours", rxStrCI "hrs", rxStrCI "hr", rxStrCI "h"], .wb]

/-- `extractDurationMinutes`: minutes first (rounded), then hours
(`Math.round(value * 60)`); a capture whose cleaned digits fail to parse
falls through, as in the source. -/
def extractDurationMinutes (note : List Char) : Option JsNumber :=
  let minuteVal := (rxCapture minutesRx note).bind
    (fun raw => parseFloatJs (raw.filter (fun c => digitC c || c == '.')))
  match minuteVal with
  | some value => some (jsNum (JsNumber.round value))
  | none =>
    let hourVal := (rxCapture hoursRx note).bind
      (fun raw => parseFloatJs (raw.filter (fun c => digitC c || c == '.')))
    match hourVal with
    | some value => some (jsNum (JsNumber.round (value.scale 60)))
    | none => none

/-- `/\$([A-Za-z]{1,5})\b/`. -/
def tickerSymbolRx : Rx :=
  rxSeq [rxStr "$", .cap (repRange letterC 1 4), .wb]

/-- `/\b[A-Z]{2,5}\b/` (applied globally to the upper-cased note). -/
def tickerCandidateRx : Rx :=
  rxSeq [.wb, repRange upperC 2 3, .wb]

/-- The candidate loop: skip the exclusion set and pure-digit candidates
(`/^\d+$/` — unreachable for `[A-Z]` runs but kept from the source),
return the first survivor. -/
def firstTickerCandidate : List (List Char) → Option String
  | [] => none
  | c :: rest =>
    if FALLBACK_TICKER_EXCLUSIONS.contains (⟨c⟩ : String) then firstTickerCandidate rest
    else if !c.isEmpty && c.all Char.isDigit then firstTickerCandidate rest
    else some ⟨c⟩

/-- `detectTickerFromNote`: a `$`-prefixed symbol wins; otherwise the
whole note is upper-cased and its 2–5 letter word-bounded runs are
scanned. -/
def detectTickerFromNote (note : String) : Option String :=
  match rxCapture tickerSymbolRx note.data with
  | some cap => some (jsToUpper ⟨cap⟩)
  | none => firstTickerCandidate (rxFindAll tickerCandidateRx (jsToUpper note).data)

/-- `detectTradeTypeFromNote`: put > call > short > long. -/
def detectTradeTypeFromNote (note : String) : TradeType :=
  if rxTest (rxSeq [.wb, rxStrCI "put", .opt (rxStrCI "s"), .wb]) note then .put
  else if rxTest (rxSeq [.wb, rxStrCI "call", .opt (rxStrCI "s"), .wb]) note then .call
  else if rxTest (rxSeq [.wb, rxStrCI "short",
      .opt (rxAlt [rxStrCI "ed", rxStrCI "ing"]), .wb]) note then .short
  else .long

/-- `detectStatusFromNote`: any closing verb means closed. -/
def detectStatusFromNote (note : String) : TradeStatus :=
  if rxTest (rxSeq [.wb,
      rxAlt [rxStrCI "close", rxStrCI "closed", rxStrCI "exit", rxStrCI "exited",
        rxStrCI "trimmed", rxStrCI "stopped", rxStrCI "stopped out",
        rxStrCI "took profit", rxStrCI "tp", rxStrCI "sold"],
      .wb]) note
  then .closed else .«open»

/-- `detectSentimentFromNote`: five keyword classes in a fixed order. -/
def detectSentimentFromNote (note : String) : Option String :=
  if rxTest (wordAltRx ["bearish", "fearful", "anxious", "worried", "nervous", "scared"]) note
  then some "bearish"
  else if rxTest (wordAltRx ["bullish", "confident", "optimistic", "excited", "positive"]) note
  then some "bullish"
  else if rxTest (wordAltRx ["neutral", "meh", "indifferent"]) note then some "neutral"
  else if rxTest (wordAltRx ["frustrated", "upset", "angry", "annoyed", "disappointed"]) note
  then some "frustrated"
  else if rxTest (wordAltRx ["happy", "pleased", "relieved", "proud"]) note then some "happy"
  else none

/-- `buildFallbackExtraction`. -/
def buildFallbackExtraction (note : String) (tradeId : Option String)
    (openTrades : List TradeEntry) : TradeExtraction :=
  let detectedTicker := detectTickerFromNote note
  let inferredTradeId :=
    match tradeId with
    | some t => some t
    | none =>
      match detectedTicker with
      | none => none
      | some dt =>
        match openTrades.find? (fun trade => trade.ticker = sanitizeTicker (some dt)) with
        | some matchingOpenTrade =>
          if rxTest fallbackUpdateHintRx note then some matchingOpenTrade.trade_id else none
        | none => none
  let entryPrice := extractNumberFromNote note.data entryPricePatterns
  let exitPrice := extractNumberFromNote note.data exitPricePatterns
  let size := extractNumberFromNote note.data sizePatterns
  let pnlUsd := extractNumberFromNote note.data pnlUsdPatterns
  let pnlPct := extractNumberFromNote note.data pnlPctPatterns
  let durationMinutes := extractDurationMinutes note.data
  let rrRatio := extractNumberFromNote note.data rrPatterns
  let summary := if jsTrim note = "" then none else some (jsSlice (jsTrim note) 280)
  { action := if inferredTradeId.isSome then .update else .create,
    target_trade_id := inferredTradeId,
    trade :=
      { trade_id := inferredTradeId,
        ticker := detectedTicker,
        trade_type := some (detectTradeTypeFromNote note),
        size := size,
        entry_price := entryPrice,
        exit_price := exitPrice,
        pnl_pct := pnlPct,
        pnl_usd := pnlUsd,
        duration_minutes := durationMinutes,
        rr_ratio := rrRatio,
        sentiment := detectSentimentFromNote note,
        status := some (detectStatusFromNote note),
        opened_at := none,
        closed_at := none,
        raw_summary := summary },
    reasoning := some
      "Fallback heuristics were applied because the AI trade extraction service was unavailable." }

/-! ### The POST note-interpretation operation
(`app/api/trades/route.ts`, memory-store branch — the hosted-collection
branch is external persistence excluded by the specification). -/

/-- The handler's impure inputs: `new Date()` and the `crypto.randomUUID()`
draws for the new note, a new trade and attachment ids. -/
structure PostEnv where
  now : Int
  freshNoteId : String
  freshTradeId : String
  freshAttachmentId : Nat → String

structure TradeRequestBody where
  note : String
  attachments : Option (List RawAttachment) := none
  tradeId : Option String := none

/-- The typed outcome of the handler (HTTP 400 / 404 / 200). -/
inductive PostResult where
  | badRequest (error : String)
  | notFound (error : String)
  | ok (action : ExtractionAction) (trade : TradeEntry) (reasoning : Option String)
deriving DecidableEq, Repr

/-- `tradeId?.trim() ? tradeId.trim() : undefined`. -/
def resolveCallerTradeId (tradeId : Option String) : Option String :=
  match tradeId with
  | none => none
  | some s => if jsTrim s = "" then none else some (jsTrim s)

/-- The update-path merge: overlay extraction fields over the stored
record, `null`/missing keeping the existing value; a closed status forces
a close time (extraction, else existing, else now), an open status forces
`null`; `createdAt` kept, `updatedAt` refreshed. -/
def mergeTradeUpdate (env : PostEnv) (extraction : TradeExtraction) (note : String)
    (sanitizedAttachments : List TradeAttachment) (existingTrade : TradeEntry) : TradeEntry :=
  let mergedNotes := mergeNotes existingTrade.notes (some [createNote env.freshNoteId env.now note])
  let mergedAttachments := mergeAttachments existingTrade.attachments (some sanitizedAttachments)
  let updatedStatus :=
    sanitizeStatus (some (statusToString (extraction.trade.status.getD existingTrade.status)))
  { existingTrade with
    ticker := sanitizeTicker (some (extraction.trade.ticker.getD existingTrade.ticker)),
    trade_type := sanitizeTradeType
      (some (tradeTypeToString (extraction.trade.trade_type.getD existingTrade.trade_type))),
    size := extraction.trade.size <|> existingTrade.size,
    entry_price := extraction.trade.entry_price <|> existingTrade.entry_price,
    exit_price := extraction.trade.exit_price <|> existingTrade.exit_price,
    pnl_pct := extraction.trade.pnl_pct <|> existingTrade.pnl_pct,
    pnl_usd := extraction.trade.pnl_usd <|> existingTrade.pnl_usd,
    duration_minutes := extraction.trade.duration_minutes <|> existingTrade.duration_minutes,
    rr_ratio := extraction.trade.rr_ratio <|> existingTrade.rr_ratio,
    sentiment := extraction.trade.sentiment <|> existingTrade.sentiment,
    status := updatedStatus,
    notes := mergedNotes,
    attachments := mergedAttachments,
    opened_at := some ((extraction.trade.opened_at <|> existingTrade.opened_at).getD env.now),
    closed_at :=
      if updatedStatus = .closed then
        some ((extraction.trade.closed_at <|> existingTrade.closed_at).getD env.now)
      else none,
    raw_summary := extraction.trade.raw_summary <|> existingTrade.raw_summary,
    updatedAt := env.now,
    createdAt := existingTrade.createdAt }

/-- The create path: a fresh record from the extraction; a missing status
defaults to closed exactly when an exit price is present; a closed status
stamps the close time (extraction, else now), an open one leaves it
`null`. -/
def buildNewTrade (env : PostEnv) (extraction : TradeExtraction) (note : String)
    (sanitizedAttachments : List TradeAttachment) : TradeEntry :=
  let status := sanitizeStatus (some
    (match extraction.trade.status with
     | some s => statusToString s
     | none => if extraction.trade.exit_price.isSome then "closed" else "open"))
  { trade_id := extraction.trade.trade_id.getD env.freshTradeId,
    ticker := sanitizeTicker extraction.trade.ticker,
    trade_type := sanitizeTradeType (extraction.trade.trade_type.map tradeTypeToString),
    size := extraction.trade.size,
    entry_price := extraction.trade.entry_price,
    exit_price := extraction.trade.exit_price,
    pnl_pct := extraction.trade.pnl_pct,
    pnl_usd := extraction.trade.pnl_usd,
    duration_minutes := extraction.trade.duration_minutes,
    rr_ratio := extraction.trade.rr_ratio,
    sentiment := extraction.trade.sentiment,
    status := status,
    notes := [createNote env.freshNoteId env.now note],
    attachments := sanitizedAttachments,
    opened_at := some (extraction.trade.opened_at.getD env.now),
    closed_at := if status = .closed then some (extraction.trade.closed_at.getD env.now) else none,
    raw_summary := extraction.trade.raw_summary,
    createdAt := env.now,
    updatedAt := env.now }

/-- `POST`, memory-store branch.  `llmExtraction` is the outcome of the
external extraction capability: `some e` when `OPENAI_API_KEY` is set and
the call parsed against the schema, `none` when it is unset or the call
failed (both fall back to the heuristics).  Returns the typed outcome and
the resulting store. -/
def postTrades (env : PostEnv) (llmExtraction : Option TradeExtraction)
    (body : TradeRequestBody) (store : List TradeEntry) : PostResult × List TradeEntry :=
  if body.note = "" || jsTrim body.note = "" then
    (.badRequest "A journal note is required.", store)
  else
    let sanitizedAttachments := normalizeAttachments env.freshAttachmentId body.attachments
    let resolvedOpenTrades := listTrades store [("status", .lit (.str "open"))]
      { limit := some 12, sortBy := .updatedAt, direction := .desc }
    let resolvedTradeId := resolveCallerTradeId body.tradeId
    let extraction :=
      match llmExtraction with
      | some e => e
      | none => buildFallbackExtraction body.note resolvedTradeId resolvedOpenTrades
    let action := if resolvedTradeId.isSome then ExtractionAction.update else extraction.action
    let targetTradeId := resolvedTradeId <|> extraction.target_trade_id <|> extraction.trade.trade_id
    if action = .update then
      match targetTradeId with
      | none => (.badRequest "Unable to identify trade to update.", store)
      | some tid =>
        match getTradeById store tid with
        | none => (.notFound "Trade not found.", store)
        | some existingTrade =>
          let updatedTrade :=
            mergeTradeUpdate env extraction body.note sanitizedAttachments existingTrade
          (.ok .update updatedTrade extraction.reasoning, upsertTrade store updatedTrade)
    else
      let newTrade := buildNewTrade env extraction body.note sanitizedAttachments
      (.ok .create newTrade extraction.reasoning, upsertTrade store newTrade)

/-! ### Claims -/

/-- C10: `listTrades` treats a limit of 0 as "no limit": for every store,
filter and sort option, a 0 limit returns the entire filtered, sorted
record set — the same result as passing no limit — because the limit is
applied only when truthy. -/
theorem listTrades_limit_zero_is_no_limit (store : List TradeEntry) (filter : FilterRecord)
    (sortBy : SortKey) (direction : SortDirection) :
    listTrades store filter { limit := some 0, sortBy := sortBy, direction := direction }
      = listTrades store filter { limit := none, sortBy := sortBy, direction := direction }
    ∧ listTrades store filter { limit := some 0, sortBy := sortBy, direction := direction }
      = sortTrades (store.filter (fun t => matchesFilter t filter))
          { limit := some 0, sortBy := sortBy, direction := direction } := by
  constructor <;> cases direction <;> simp [listTrades, sortTrades]

/-- C9: a request whose note is empty or whitespace-only is rejected with
the "note required" condition before any extraction (the outcome is the
same for every extraction-capability outcome `llm`), and the store is
unchanged. -/
theorem post_rejects_blank_note (env : PostEnv) (llm : Option TradeExtraction)
    (body : TradeRequestBody) (store : List TradeEntry)
    (hblank : jsTrim body.note = "") :
    postTrades env llm body store
      = (.badRequest "A journal note is required.", store) := by
  simp [postTrades, hblank]

theorem post_rejects_blank_note_witness :
    jsTrim "   " = ""
    ∧ postTrades ⟨0, "n0", "t0", fun _ => "a0"⟩ none { note := "   " } []
        = (.badRequest "A journal note is required.", []) :=
  ⟨by decide, post_rejects_blank_note ⟨0, "n0", "t0", fun _ => "a0"⟩ none { note := "   " } []
    (by decide)⟩

/-- C6: in `matchesFilter`, a membership condition with an empty (or
missing) set contributes no restriction; a null condition is skipped; a
non-empty membership set matches exactly when some member matches the
record's value, case-insensitively when both sides are strings and by
strict equality otherwise. -/
theorem matchesFilter_membership_spec (t : TradeEntry) (k : String)
    (rest : FilterRecord) (c : JsValue) (cs : List JsValue) :
    (matchesFilter t ((k, .inSet none) :: rest) = matchesFilter t rest)
    ∧ (matchesFilter t ((k, .inSet (some [])) :: rest) = matchesFilter t rest)
    ∧ (matchesFilter t ((k, .lit .nullV) :: rest) = matchesFilter t rest)
    ∧ (matchesCond (tradeField t k) (.inSet (some (c :: cs)))
        = (c :: cs).any (fun cand => inCandMatches cand (tradeField t k)))
    ∧ (∀ cstr vstr : String,
        inCandMatches (.str cstr) (.str vstr) = (jsToLower cstr == jsToLower vstr))
    ∧ (∀ n m : JsNumber, inCandMatches (.num n) (.num m) = JsNumber.valEq n m) := by
  refine ⟨?_, ?_, ?_, ?_, ?_, ?_⟩ <;>
    simp [matchesFilter, matchesCond, inCandMatches, jsStrictEq]

/-- The status/close-time coupling of the data model. -/
def closedAtConsistent (t : TradeEntry) : Prop :=
  t.status = .closed ↔ t.closed_at ≠ none

/-- C4: every record produced by the update (merge) path and by the
create path satisfies the status/close-time coupling, and the close time
is exactly the documented default chain: for an update, extraction value,
else the existing record's, else "now"; for a create, extraction value,
else "now"; an open status forces a null close time. -/
theorem status_close_time_coupling (env : PostEnv) (extraction : TradeExtraction)
    (note : String) (atts : List TradeAttachment) (existing : TradeEntry) :
    closedAtConsistent (mergeTradeUpdate env extraction note atts existing)
    ∧ closedAtConsistent (buildNewTrade env extraction note atts)
    ∧ ((mergeTradeUpdate env extraction note atts existing).closed_at
        = if (mergeTradeUpdate env extraction note atts existing).status = .closed
          then some ((extraction.trade.closed_at <|> existing.closed_at).getD env.now)
          else none)
    ∧ ((buildNewTrade env extraction note atts).closed_at
        = if (buildNewTrade env extraction note atts).status = .closed
          then some (extraction.trade.closed_at.getD env.now)
          else none) := by
  refine ⟨?_, ?_, rfl, rfl⟩
  · simp only [closedAtConsistent, mergeTradeUpdate]
    split <;> simp_all
  · simp only [closedAtConsistent, buildNewTrade]
    split <;> simp_all

/-- C3 setup: a concrete environment, stored record, model extraction and
request used by the witness below. -/
def c3Env : PostEnv := ⟨100, "n1", "t9", fun _ => "a0"⟩

def c3Existing : TradeEntry :=
  { trade_id := "T1", ticker := "AAPL", trade_type := .long,
    size := none, entry_price := some ⟨185, 0⟩, exit_price := none, pnl_pct := none,
    pnl_usd := none, duration_minutes := none, rr_ratio := none, sentiment := none,
    status := .«open», notes := [⟨"n0", "opened", 10⟩], attachments := [],
    opened_at := some 10, closed_at := none, raw_summary := none,
    createdAt := 10, updatedAt := 10 }

def noneExtractionTrade : ExtractionTrade :=
  { trade_id := none, ticker := none, trade_type := none, size := none,
    entry_price := none, exit_price := none, pnl_pct := none, pnl_usd := none,
    duration_minutes := none, rr_ratio := none, sentiment := none, status := none,
    opened_at := none, closed_at := none, raw_summary := none }

/-- A model extraction that asks for a *create* targeting a *different*
record — the caller-supplied id must win over both. -/
def c3Llm : TradeExtraction :=
  { action := .create, target_trade_id := some "OTHER",
    trade := noneExtractionTrade,
    reasoning := some "model says create" }

def c3Body : TradeRequestBody := { note := "hello there", tradeId := some " T1 " }

def c3Updated : TradeEntry :=
  { trade_id := "T1", ticker := "AAPL", trade_type := .long,
    size := none, entry_price := some ⟨185, 0⟩, exit_price := none, pnl_pct := none,
    pnl_usd := none, duration_minutes := none, rr_ratio := none, sentiment := none,
    status := .«open»,
    notes := [⟨"n0", "opened", 10⟩, ⟨"n1", "hello there", 100⟩],
    attachments := [], opened_at := some 10, closed_at := none, raw_summary := none,
    createdAt := 10, updatedAt := 100 }


/-- C3: a request whose caller-supplied target id is non-empty (after the
trim the route applies) always takes the update path, whatever action or
target id the extraction — external (`llm`) or heuristic — produced, and
the record looked up for the update is exactly the caller's id: a missing
record is a "not found" outcome, a present one is merged and stored. -/
theorem post_caller_id_forces_update (env : PostEnv) (llm : Option TradeExtraction)
    (body : TradeRequestBody) (store : List TradeEntry) (tid : String)
    (hnote : jsTrim body.note ≠ "")
    (hid : resolveCallerTradeId body.tradeId = some tid) :
    postTrades env llm body store =
      (let extraction :=
        match llm with
        | some e => e
        | none => buildFallbackExtraction body.note (some tid)
            (listTrades store [("status", .lit (.str "open"))]
              { limit := some 12, sortBy := .updatedAt, direction := .desc });
      match getTradeById store tid with
      | none => (PostResult.notFound "Trade not found.", store)
      | some existingTrade =>
        let updatedTrade := mergeTradeUpdate env extraction body.note
          (normalizeAttachments env.freshAttachmentId body.attachments) existingTrade
        (PostResult.ok .update updatedTrade extraction.reasoning,
          upsertTrade store updatedTrade)) := by
  have h0 : body.note ≠ "" := by
    intro h
    apply hnote
    rw [h]
    decide
  simp [postTrades, hid, h0, hnote]


theorem post_caller_id_forces_update_witness :
    jsTrim c3Body.note ≠ ""
    ∧ resolveCallerTradeId c3Body.tradeId = some "T1"
    ∧ postTrades c3Env (some c3Llm) c3Body [c3Existing]
        = (PostResult.ok .update c3Updated (some "model says create"), [c3Updated]) :=
  ⟨by decide, by decide,
    (post_caller_id_forces_update c3Env (some c3Llm) c3Body [c3Existing] "T1" (by decide)
        (by decide)).trans (by decide)⟩

/-! ### Generic facts about the stable sort -/

theorem mem_stableInsert (le : α → α → Bool) (a y : α) (l : List α) :
    y ∈ stableInsert le a l ↔ y = a ∨ y ∈ l := by
  induction l with
  | nil => simp [stableInsert]
  | cons b bs ih =>
    by_cases h : le b a
    · simp only [stableInsert, if_pos h, List.mem_cons, ih]
      tauto
    · simp only [stableInsert, if_neg h, List.mem_cons]

theorem length_stableInsert (le : α → α → Bool) (a : α) (l : List α) :
    (stableInsert le a l).length = l.length + 1 := by
  induction l with
  | nil => rfl
  | cons b bs ih => by_cases h : le b a <;> simp [stableInsert, h, ih]

theorem length_stableSort (le : α → α → Bool) (l : List α) :
    (stableSort le l).length = l.length := by
  suffices h : ∀ acc : List α,
      (l.foldl (fun acc a => stableInsert le a acc) acc).length = acc.length + l.length by
    simpa using h []
  induction l with
  | nil => simp
  | cons a tl ih =>
    intro acc
    simp only [List.foldl_cons, ih, length_stableInsert, List.length_cons]
    omega

theorem pairwise_stableInsert (le : α → α → Bool)
    (htot : ∀ a b, le a b || le b a)
    (htrans : ∀ a b c, le a b = true → le b c = true → le a c = true)
    (a : α) (l : List α) (hl : l.Pairwise (fun x y => le x y = true)) :
    (stableInsert le a l).Pairwise (fun x y => le x y = true) := by
  induction l with
  | nil => simp [stableInsert]
  | cons b bs ih =>
    rcases List.pairwise_cons.mp hl with ⟨hb, hbs⟩
    by_cases h : le b a
    · simp only [stableInsert, h, if_true]
      refine List.pairwise_cons.mpr ⟨?_, ih hbs⟩
      intro y hy
      rcases (mem_stableInsert le a y bs).mp hy with rfl | hy
      · exact h
      · exact hb y hy
    · simp only [stableInsert, h, if_false]
      have hab : le a b = true := by
        rcases Bool.or_eq_true_iff.mp (htot a b) with h1 | h1
        · exact h1
        · exact absurd h1 h
      refine List.pairwise_cons.mpr ⟨?_, hl⟩
      intro y hy
      rcases List.mem_cons.mp hy with rfl | hy
      · exact hab
      · exact htrans a b y hab (hb y hy)

theorem pairwise_stableSort (le : α → α → Bool)
    (htot : ∀ a b, le a b || le b a)
    (htrans : ∀ a b c, le a b = true → le b c = true → le a c = true)
    (l : List α) : (stableSort le l).Pairwise (fun x y => le x y = true) := by
  suffices h : ∀ acc : List α, acc.Pairwise (fun x y => le x y = true) →
      (l.foldl (fun acc a => stableInsert le a acc) acc).Pairwise
        (fun x y => le x y = true) from h [] (by simp)
  induction l with
  | nil => intro acc hacc; simpa using hacc
  | cons a tl ih =>
    intro acc hacc
    simpa using ih (stableInsert le a acc) (pairwise_stableInsert le htot htrans a acc hacc)

/-! ### The `mergeNotes` dedup loop -/

/-- When every incoming id is already present, the loop appends nothing. -/
theorem mergeNotesStep_foldl_all_present (inc : List TradeNote) :
    ∀ (ids : List String) (acc : List TradeNote),
      (∀ n ∈ inc, ids.contains n.id) →
      (inc.foldl mergeNotesStep (ids, acc)).2 = acc := by
  induction inc with
  | nil => intro ids acc _; rfl
  | cons n tl ih =>
    intro ids acc h
    have hn : ids.contains n.id := h n (by simp)
    simp only [List.foldl_cons, mergeNotesStep, hn, if_true]
    exact ih ids acc (fun m hm => h m (by simp [hm]))

/-- When the incoming ids are distinct among themselves, the loop appends
exactly the incoming notes whose id is not already present, in order. -/
theorem mergeNotesStep_foldl_filter (inc : List TradeNote) :
    ∀ (ids : List String) (acc : List TradeNote),
      (inc.map (fun n => n.id)).Nodup →
      (inc.foldl mergeNotesStep (ids, acc)).2
        = acc ++ inc.filter (fun n => !ids.contains n.id) := by
  induction inc with
  | nil => intro ids acc _; simp
  | cons n tl ih =>
    intro ids acc hnd
    have hnd' : (tl.map (fun n => n.id)).Nodup := (List.nodup_cons.mp (by simpa using hnd)).2
    have hnotin : n.id ∉ tl.map (fun n => n.id) := (List.nodup_cons.mp (by simpa using hnd)).1
    by_cases hc : ids.contains n.id
    · have hmem : n.id ∈ ids := by simpa using hc
      simp only [List.foldl_cons, mergeNotesStep, hc, if_true]
      rw [ih ids acc hnd', List.filter_cons]
      simp [hmem]
    · have hcf : ids.contains n.id = false := by simpa using hc
      have hmem : n.id ∉ ids := by simpa using hc
      simp only [List.foldl_cons, mergeNotesStep, hcf, Bool.false_eq_true, if_false]
      rw [ih (n.id :: ids) (acc ++ [n]) hnd', List.filter_cons]
      have hfilter : tl.filter (fun m => !(n.id :: ids).contains m.id)
          = tl.filter (fun m => !ids.contains m.id) := by
        apply List.filter_congr
        intro m hm
        have hne : m.id ≠ n.id := by
          intro he
          exact hnotin (he ▸ List.mem_map_of_mem (fun x => x.id) hm)
        simp [List.contains_cons, hne]
      rw [hfilter]
      simp [hmem]

/-- C5: `mergeNotes` returns the existing list unchanged when the
incoming list is absent or empty; a non-empty incoming list (with
distinct ids) appends exactly the incoming notes whose id is not already
present and re-sorts the combined list by creation timestamp ascending;
`mergeNotes(L, L)` is idempotent — the list re-sorted — for every `L`;
and every result with a present incoming list is sorted ascending by
creation timestamp unless it is the untouched existing list. -/
theorem mergeNotes_spec :
    (∀ existing : List TradeNote, mergeNotes existing none = existing)
    ∧ (∀ existing : List TradeNote, mergeNotes existing (some []) = existing)
    ∧ (∀ (existing incoming : List TradeNote), incoming ≠ [] →
        (incoming.map (fun n => n.id)).Nodup →
        mergeNotes existing (some incoming)
          = stableSort (fun a b => a.createdAt ≤ b.createdAt)
              (existing ++ incoming.filter
                (fun n => !(existing.map (fun m => m.id)).contains n.id)))
    ∧ (∀ l : List TradeNote,
        mergeNotes l (some l) = stableSort (fun a b => a.createdAt ≤ b.createdAt) l)
    ∧ (∀ (existing incoming : List TradeNote),
        (mergeNotes existing (some incoming)).Pairwise
          (fun a b => a.createdAt ≤ b.createdAt)
        ∨ mergeNotes existing (some incoming) = existing) := by
  have htot : ∀ a b : TradeNote,
      (decide (a.createdAt ≤ b.createdAt) || decide (b.createdAt ≤ a.createdAt)) = true := by
    intro a b
    simp [Int.le_total a.createdAt b.createdAt]
  have htrans : ∀ a b c : TradeNote, decide (a.createdAt ≤ b.createdAt) = true →
      decide (b.createdAt ≤ c.createdAt) = true →
      decide (a.createdAt ≤ c.createdAt) = true := by
    intro a b c h1 h2
    simp only [decide_eq_true_eq] at h1 h2 ⊢
    exact le_trans h1 h2
  refine ⟨fun _ => rfl, fun _ => rfl, ?_, ?_, ?_⟩
  · intro existing incoming hne hnd
    have hemp : incoming.isEmpty = false := by
      cases incoming with
      | nil => exact absurd rfl hne
      | cons x xs => rfl
    simp only [mergeNotes, hemp, Bool.false_eq_true, if_false]
    rw [mergeNotesStep_foldl_filter incoming (existing.map (fun n => n.id)) existing hnd]
  · intro l
    cases l with
    | nil => rfl
    | cons x xs =>
      simp only [mergeNotes, List.isEmpty_cons, Bool.false_eq_true, if_false]
      rw [mergeNotesStep_foldl_all_present (x :: xs) ((x :: xs).map (fun n => n.id)) (x :: xs)]
      intro n hn
      simpa using List.mem_map_of_mem (fun m => m.id) hn
  · intro existing incoming
    cases incoming with
    | nil => exact Or.inr rfl
    | cons x xs =>
      left
      simp only [mergeNotes, List.isEmpty_cons, Bool.false_eq_true, if_false]
      exact (pairwise_stableSort _ htot htrans _).imp (fun h => by simpa using h)

theorem mergeNotes_spec_witness :
    (([⟨"b", "second", 3⟩] : List TradeNote) ≠ [])
    ∧ (([(⟨"b", "second", 3⟩ : TradeNote)].map (fun n => n.id)).Nodup)
    ∧ mergeNotes [⟨"a", "first", 5⟩] (some [⟨"b", "second", 3⟩])
        = stableSort (fun a b => a.createdAt ≤ b.createdAt)
            ([⟨"a", "first", 5⟩] ++ [(⟨"b", "second", 3⟩ : TradeNote)].filter
              (fun n => !(([(⟨"a", "first", 5⟩ : TradeNote)].map (fun m => m.id)).contains n.id))) :=
  ⟨by decide, by decide,
    mergeNotes_spec.2.2.1 [⟨"a", "first", 5⟩] [⟨"b", "second", 3⟩] (by decide) (by decide)⟩

/-- C2 setup: a record whose corpus contains neither "fearful" nor
"losing" (nor "trades"). -/
def c2Trade : TradeEntry :=
  { trade_id := "t1", ticker := "MSFT", trade_type := .long, size := none,
    entry_price := none, exit_price := none, pnl_pct := none, pnl_usd := none,
    duration_minutes := none, rr_ratio := none, sentiment := none, status := .«open»,
    notes := [], attachments := [], opened_at := none, closed_at := none,
    raw_summary := none, createdAt := 0, updatedAt := 0 }

/-- C2 counterexample: over a one-record set whose corpus holds no query
token at all (and whose ticker is neither token), `search("fearful losing
trades", {})` still returns that record — candidates are ranked, never
discarded for scoring 0 — so the claimed empty result list is wrong. -/
theorem search_no_token_counterexample :
    listContainsSub (buildSearchCorpus c2Trade).data "fearful".data = false
    ∧ listContainsSub (buildSearchCorpus c2Trade).data "losing".data = false
    ∧ jsToLower c2Trade.ticker ≠ "fearful"
    ∧ jsToLower c2Trade.ticker ≠ "losing"
    ∧ searchTrades [c2Trade] "fearful losing trades" [] 15 = [c2Trade] := by
  decide

theorem length_sortByScore (r : List RankedTrade) : (sortByScore r).length = r.length := by
  simp [sortByScore, length_stableSort]

theorem sortByScore_eq_nil_iff (r : List RankedTrade) : sortByScore r = [] ↔ r = [] := by
  constructor
  · intro h
    have hlen := congrArg List.length h
    simp only [length_sortByScore, List.length_nil] at hlen
    exact List.length_eq_zero.mp hlen
  · intro h
    simp [h, sortByScore, stableSort]

/-- C2 amended: the ranking never discards a candidate, so for any
positive limit the search result is empty exactly when the filtered
candidate set is empty (regardless of the query's tokens); and the
narrative builder returns the documented empty-result message on an
empty result list rather than an error. -/
theorem search_keeps_zero_score_candidates (store : List TradeEntry) (query : String)
    (filter : FilterRecord) (limit : Nat) (hl : 1 ≤ limit) :
    (searchTrades store query filter limit = []
      ↔ listTrades store filter { sortBy := .updatedAt, direction := .desc } = [])
    ∧ (∀ q : String, buildSearchAnswer q []
        = "I couldn\x27t find any journal entries related to \"" ++ q
          ++ "\". Try adjusting your filters or add more detail to future notes.") := by
  constructor
  · unfold searchTrades
    rw [List.take_eq_nil_iff]
    have h0 : limit ≠ 0 := by omega
    simp only [h0, false_or]
    rw [sortByScore_eq_nil_iff]
    unfold rankTradesByTokens
    simp [List.map_eq_nil_iff]
  · intro q
    rfl

theorem search_keeps_zero_score_candidates_witness :
    1 ≤ 15
    ∧ ((searchTrades [c2Trade] "fearful losing trades" [] 15 = []
        ↔ listTrades [c2Trade] [] { sortBy := .updatedAt, direction := .desc } = [])
      ∧ (∀ q : String, buildSearchAnswer q []
          = "I couldn\x27t find any journal entries related to \"" ++ q
            ++ "\". Try adjusting your filters or add more detail to future notes.")) :=
  ⟨by decide,
    search_keeps_zero_score_candidates [c2Trade] "fearful losing trades" [] 15 (by decide)⟩

/-- The candidate loop is a `find?` over the skip predicate. -/
theorem firstTickerCandidate_eq_find (cands : List (List Char)) :
    firstTickerCandidate cands
      = ((cands.find? (fun c => !FALLBACK_TICKER_EXCLUSIONS.contains (⟨c⟩ : String)
          && !(!c.isEmpty && c.all Char.isDigit))).map (fun c => (⟨c⟩ : String))) := by
  induction cands with
  | nil => rfl
  | cons c rest ih =>
    by_cases h1 : FALLBACK_TICKER_EXCLUSIONS.contains (⟨c⟩ : String)
    · simp only [firstTickerCandidate, if_pos h1, List.find?_cons, h1, Bool.not_true,
        Bool.false_and]
      exact ih
    · by_cases h2 : (!c.isEmpty && c.all Char.isDigit) = true
      · have h1f : FALLBACK_TICKER_EXCLUSIONS.contains (⟨c⟩ : String) = false := by
          simpa using h1
        simp only [firstTickerCandidate, if_neg h1, if_pos h2, List.find?_cons, h1f,
          Bool.not_false, Bool.true_and, h2, Bool.not_true]
        exact ih
      · have h1f : FALLBACK_TICKER_EXCLUSIONS.contains (⟨c⟩ : String) = false := by
          simpa using h1
        have h2f : (!c.isEmpty && c.all Char.isDigit) = false := by
          simpa using h2
        simp only [firstTickerCandidate, if_neg h1, if_neg h2, List.find?_cons, h1f, h2f,
          Bool.not_false, Bool.true_and, Option.map_some]
        simp

/-- The ticker scan as the specification words it: only tokens that
appear in upper case in the note itself are scanned — no prior
upper-casing of the whole note.  Built solely to compare against the
source's `detectTickerFromNote`. -/
def claimDetectTicker (note : String) : Option String :=
  match rxCapture tickerSymbolRx note.data with
  | some cap => some (jsToUpper ⟨cap⟩)
  | none => firstTickerCandidate (rxFindAll tickerCandidateRx note.data)

/-- C8 counterexample: a fully lower-case note has no upper-case tokens,
so the claimed scan finds nothing — but the source upper-cases the whole
note first and returns "GME". -/
theorem detectTicker_uppercase_scan_counterexample :
    detectTickerFromNote "gme" = some "GME"
    ∧ claimDetectTicker "gme" = none
    ∧ rxFindAll tickerCandidateRx "gme".data = [] := by
  decide

/-- C8 amended: heuristic ticker detection returns the (upper-cased)
dollar-prefixed token when one is present; otherwise it upper-cases the
whole note, takes its word-bounded 2–5 letter runs, and returns the
first one that is neither in the exclusion set nor all digits, else
nothing. -/
theorem detectTicker_amended (note : String) :
    detectTickerFromNote note =
      (match rxCapture tickerSymbolRx note.data with
      | some cap => some (jsToUpper ⟨cap⟩)
      | none =>
        ((rxFindAll tickerCandidateRx (jsToUpper note).data).find?
          (fun c => !FALLBACK_TICKER_EXCLUSIONS.contains (⟨c⟩ : String)
            && !(!c.isEmpty && c.all Char.isDigit))).map (fun c => (⟨c⟩ : String))) := by
  unfold detectTickerFromNote
  cases rxCapture tickerSymbolRx note.data with
  | some cap => rfl
  | none => exact firstTickerCandidate_eq_find _

/-- C1 setup: the scenario note, with the external extraction capability
disabled (`llmExtraction = none`) and no open AAPL record in the store. -/
def c1Env : PostEnv := ⟨0, "note-0", "trade-0", fun _ => "a0"⟩

def c1Body : TradeRequestBody := { note := "Bought 100 AAPL calls @ 5.20" }

/-- The record the heuristic create path actually produces for the C1
note: entry price 100 (captured from "Bought 100" by the
buy-keyword pattern, which runs before the "@" pattern) and no size (no
size pattern mentions a bare share count). -/
def c1Created : TradeEntry :=
  { trade_id := "trade-0", ticker := "AAPL", trade_type := .call,
    size := none, entry_price := some ⟨100, 0⟩, exit_price := none, pnl_pct := none,
    pnl_usd := none, duration_minutes := none, rr_ratio := none, sentiment := none,
    status := .«open»,
    notes := [⟨"note-0", "Bought 100 AAPL calls @ 5.20", 0⟩],
    attachments := [], opened_at := some 0, closed_at := none,
    raw_summary := some "Bought 100 AAPL calls @ 5.20",
    createdAt := 0, updatedAt := 0 }

/-- C1 counterexample: processing the note on the heuristic path over an
empty store creates a record as claimed, but its entry price is 100 —
not 5.20 (the values differ as JS numbers) — and its size is null, not
100, so the claimed field values are wrong. -/
theorem bought_aapl_calls_counterexample :
    (postTrades c1Env none c1Body []).1
      = PostResult.ok .create c1Created
          (some "Fallback heuristics were applied because the AI trade extraction service was unavailable.")
    ∧ c1Created.entry_price = some ⟨100, 0⟩
    ∧ JsNumber.valEq ⟨100, 0⟩ ⟨520, 2⟩ = false
    ∧ c1Created.size = none := by
  decide

/-- C1 amended: with the external extraction disabled and no open AAPL
record, the note "Bought 100 AAPL calls @ 5.20" produces action=create
and a record with ticker "AAPL", trade kind call and status open — but
entry price 100 (the first number after the buy keyword; the "@" pattern
is lower priority) and size null (no size keyword matches). -/
theorem bought_aapl_calls_amended :
    postTrades c1Env none c1Body []
      = (PostResult.ok .create c1Created
          (some "Fallback heuristics were applied because the AI trade extraction service was unavailable."),
        [c1Created])
    ∧ c1Created.ticker = "AAPL"
    ∧ c1Created.trade_type = .call
    ∧ c1Created.status = .«open»
    ∧ c1Created.entry_price = some ⟨100, 0⟩
    ∧ c1Created.size = none := by
  decide

/-! ### The streak walk of the Analytics Engine -/

theorem takeWhile_all_eq (p : α → Bool) (xs : List α) (h : xs.all p) :
    xs.takeWhile p = xs := by
  induction xs with
  | nil => rfl
  | cons x t ih =>
    simp only [List.all_cons, Bool.and_eq_true] at h
    simp [List.takeWhile_cons, h.1, ih h.2]

theorem takeWhile_length_eq_iff_all (p : α → Bool) (xs : List α) :
    ((xs.takeWhile p).length = xs.length) ↔ xs.all p := by
  induction xs with
  | nil => simp
  | cons x t ih =>
    by_cases h : p x
    · simp [List.takeWhile_cons, h, ih]
    · simp [List.takeWhile_cons, h]

theorem foldr_max_acc (xs : List Nat) : ∀ b : Nat, xs.foldr max b = max (xs.foldr max 0) b := by
  induction xs with
  | nil => intro b; simp
  | cons x t ih =>
    intro b
    simp only [List.foldr_cons, ih b]
    omega

/-- The running streak after the walk: `cur` extended through an all-win
list, else the length of the trailing win run. -/
theorem streakFold_curr (l : List TradeEntry) :
    ∀ long cur : Nat,
      (l.foldl (fun (st : Nat × Nat) t =>
          if isWin t then (max st.1 (st.2 + 1), st.2 + 1) else (st.1, 0)) (long, cur)).2
        = if l.all isWin then cur + l.length else (l.reverse.takeWhile isWin).length := by
  induction l with
  | nil => intro long cur; simp
  | cons a t ih =>
    intro long cur
    by_cases hw : isWin a
    · rw [List.foldl_cons]
      simp only [hw, if_true]
      rw [ih (max long (cur + 1)) (cur + 1)]
      by_cases hall : t.all isWin
      · simp [hall, List.all_cons, hw, List.length_cons]
        omega
      · have hne : ¬ ((t.reverse.takeWhile isWin).length = t.reverse.length) := by
          rw [takeWhile_length_eq_iff_all, List.all_reverse]
          simp [hall]
        simp only [hall, if_false, List.all_cons, hw, Bool.true_and, List.reverse_cons,
          List.takeWhile_append, hne, Bool.false_eq_true]
    · rw [List.foldl_cons]
      simp only [hw, if_false, Bool.false_eq_true]
      rw [ih long 0]
      have hwf : isWin a = false := by simpa using hw
      by_cases hall : t.all isWin
      · have hlen : (t.reverse.takeWhile isWin).length = t.reverse.length := by
          rw [takeWhile_length_eq_iff_all, List.all_reverse]
          exact hall
        simp only [hall, if_true, List.all_cons, hwf, Bool.false_and, Bool.false_eq_true,
          if_false, List.reverse_cons, List.takeWhile_append, hlen, if_true]
        simp [List.takeWhile_cons, hwf]
      · have hne : ¬ ((t.reverse.takeWhile isWin).length = t.reverse.length) := by
          rw [takeWhile_length_eq_iff_all, List.all_reverse]
          simp [hall]
        simp only [hall, if_false, List.all_cons, hwf, Bool.false_and, Bool.false_eq_true,
          List.reverse_cons, List.takeWhile_append, hne]

/-- From the zero start the running streak is exactly the trailing win
run of what has been walked. -/
theorem streakFold_curr_zero (l : List TradeEntry) :
    (l.foldl (fun (st : Nat × Nat) t =>
        if isWin t then (max st.1 (st.2 + 1), st.2 + 1) else (st.1, 0)) (0, 0)).2
      = (l.reverse.takeWhile isWin).length := by
  rw [streakFold_curr]
  by_cases hall : l.all isWin
  · have : l.reverse.takeWhile isWin = l.reverse := by
      apply takeWhile_all_eq
      rw [List.all_reverse]
      exact hall
    simp [hall, this]
  · simp [hall]

/-- The tracked maximum is the largest running value seen over all
prefixes of the walk. -/
theorem streakFold_longest (l : List TradeEntry) :
    (l.foldl (fun (st : Nat × Nat) t =>
        if isWin t then (max st.1 (st.2 + 1), st.2 + 1) else (st.1, 0)) (0, 0)).1
      = ((l.inits).map (fun p => (p.reverse.takeWhile isWin).length)).foldr max 0 := by
  induction l using List.reverseRecOn with
  | nil => simp
  | append_singleton t a ih =>
    rw [List.foldl_append]
    have hinits : (t ++ [a]).inits = t.inits ++ [t ++ [a]] := by
      simp [List.inits_append]
    rw [hinits, List.map_append, List.foldr_append]
    simp only [List.map_cons, List.map_nil, List.foldr_cons, List.foldr_nil]
    rw [foldr_max_acc]
    have hrev : (t ++ [a]).reverse = a :: t.reverse := by simp
    by_cases hw : isWin a
    · simp only [List.foldl_cons, List.foldl_nil, hw, if_true]
      rw [ih, streakFold_curr_zero]
      rw [hrev]
      simp only [List.takeWhile_cons, hw, if_true, List.length_cons]
      omega
    · have hwf : isWin a = false := by simpa using hw
      simp only [List.foldl_cons, List.foldl_nil, hwf, Bool.false_eq_true, if_false]
      rw [ih, hrev]
      simp only [List.takeWhile_cons, hwf, Bool.false_eq_true, if_false, List.length_nil]
      omega

/-- C7 setup: three closed records with pnl_usd +100, −50, +75 in that
close-time order. -/
def c7r1 : TradeEntry :=
  { trade_id := "r1", ticker := "AAA", trade_type := .long, size := none,
    entry_price := none, exit_price := none, pnl_pct := none, pnl_usd := some ⟨100, 0⟩,
    duration_minutes := none, rr_ratio := none, sentiment := none, status := .closed,
    notes := [], attachments := [], opened_at := none, closed_at := some 1,
    raw_summary := none, createdAt := 0, updatedAt := 0 }

def c7r2 : TradeEntry :=
  { trade_id := "r2", ticker := "BBB", trade_type := .long, size := none,
    entry_price := none, exit_price := none, pnl_pct := none, pnl_usd := some ⟨-50, 0⟩,
    duration_minutes := none, rr_ratio := none, sentiment := none, status := .closed,
    notes := [], attachments := [], opened_at := none, closed_at := some 2,
    raw_summary := none, createdAt := 0, updatedAt := 0 }

def c7r3 : TradeEntry :=
  { trade_id := "r3", ticker := "CCC", trade_type := .long, size := none,
    entry_price := none, exit_price := none, pnl_pct := none, pnl_usd := some ⟨75, 0⟩,
    duration_minutes := none, rr_ratio := none, sentiment := none, status := .closed,
    notes := [], attachments := [], opened_at := none, closed_at := some 3,
    raw_summary := none, createdAt := 0, updatedAt := 0 }

def c7Trades : List TradeEntry := [c7r1, c7r2, c7r3]

/-- C7: over the three closed records the analytics report
winRate = 200/3 (66.67), longestWinStreak = 1, currentWinStreak = 1,
bestTrade = the +100 record, worstTrade = the −50 record, and a pnl
timeline cumulating to [100, 50, 125] in close-time order; and in
general the streak walk sorts the closed records by close time ascending
(missing close time as 0), so that the reported current streak is the
trailing win run of that order and the reported longest streak is the
maximum running value over all prefixes of the walk. -/
theorem analytics_scenario_and_streaks :
    (calculateAnalytics c7Trades).winRate = 200 / 3
    ∧ (calculateAnalytics c7Trades).longestWinStreak = 1
    ∧ (calculateAnalytics c7Trades).currentWinStreak = 1
    ∧ (calculateAnalytics c7Trades).bestTrade = some c7r1
    ∧ (calculateAnalytics c7Trades).worstTrade = some c7r2
    ∧ (calculateAnalytics c7Trades).pnlTimeline.map (fun p => p.cumulativePnlUsd)
        = [⟨100, 0⟩, ⟨50, 0⟩, ⟨125, 0⟩]
    ∧ (calculateAnalytics c7Trades).pnlTimeline.map (fun p => p.trade_id)
        = ["r1", "r2", "r3"]
    ∧ (∀ trades : List TradeEntry,
        (calculateAnalytics trades).currentWinStreak
          = ((stableSort (fun a b => a.closed_at.getD 0 ≤ b.closed_at.getD 0)
              (trades.filter (fun t => t.status = .closed))).reverse.takeWhile isWin).length
        ∧ (calculateAnalytics trades).longestWinStreak
          = (((stableSort (fun a b => a.closed_at.getD 0 ≤ b.closed_at.getD 0)
              (trades.filter (fun t => t.status = .closed))).inits).map
              (fun p => (p.reverse.takeWhile isWin).length)).foldr max 0) := by
  refine ⟨?_, by decide, by decide, by decide, by decide, by decide, by decide, ?_⟩
  · have h : (calculateAnalytics c7Trades).winRate = ratePct 2 3 := rfl
    rw [h]
    norm_num [ratePct]
  · intro trades
    exact ⟨streakFold_curr_zero _, streakFold_longest _⟩
